import Mathlib

/-!
Shallow embedding of the `ws` repository's lexer and recursive-descent parser
(`src/test.py`), together with theorems settling the specification claims.

Conventions of the embedding:
* Python raised exceptions become `Except Err` results (`Exception("Invalid
  character")` is `Err.lexError`, `Exception("Invalid syntax")` is
  `Err.synError`, a Python `TypeError` from `result += None` is
  `Err.typeError`, a Python `ValueError` from `float(...)` is
  `Err.valueError`).
* The lexer state is the pair of the immutable source buffer and the cursor
  `position`; `current_char` is the derived view `text[position]` when in
  bounds, else `None`, exactly as in the source.
* Each `while` loop of the Python lexer becomes a recursive helper that
  recurses structurally on the remaining suffix `text.drop position` of the
  buffer (the loop's view of `current_char`), threading the cursor state.
* Character classification (`isspace`, `isdigit`, `isalpha`, `isalnum`) is
  modelled on the ASCII fragment the sources exercise.
* The parser's mutual recursion takes an explicit fuel argument; running out
  of fuel yields `Err.fuelOut`, so genuine divergence of the source shows up
  as `Err.fuelOut` for every fuel.
* Python `float` conversion is modelled exactly over `ℚ` (IEEE rounding is
  abstracted to exact decimal value); `int` conversion over `ℤ`.
-/

namespace WS

/-- Token kinds of `src/test.py` (module-level string constants there). -/
inductive TokenType where
  | INTEGER | FLOAT | STRING | CHAR
  | PLUS | MINUS | MULTIPLY | DIVIDE | MODULO
  | LPAREN | RPAREN
  | IDENTIFIER | ASSIGN
  | KEYWORD | BOOLEAN
  | EOF
  | COMMA
deriving DecidableEq

/-- Python values a `Token.value` can hold: `None`, an int, a float
(modelled as `ℚ`), or a string (identifier text, keyword text, decoded
literal, or operator glyph). -/
inductive PyVal where
  | none
  | int (n : ℤ)
  | float (q : ℚ)
  | str (s : List Char)
deriving DecidableEq

/-- `Token(type, value)` of `src/test.py`. -/
structure Token where
  type : TokenType
  value : PyVal
deriving DecidableEq

/-- Failure modes: the two `Exception`s raised by the source, the two
Python runtime errors it can hit, and fuel exhaustion of the model. -/
inductive Err where
  | lexError | synError | typeError | valueError | fuelOut
deriving DecidableEq

/-- Lexer state: the source buffer and the cursor (`self.text`,
`self.position`). -/
structure LexerState where
  text : List Char
  pos : ℕ
deriving DecidableEq

/-- `self.current_char`: the character under the cursor, `None` past the
end (the source keeps this as a field but it is always exactly this
function of `text` and `position`). -/
def current_char (s : LexerState) : Option Char :=
  s.text[s.pos]?

/-- `Lexer.advance`: move the cursor one position ahead. -/
def advance (s : LexerState) : LexerState :=
  { s with pos := s.pos + 1 }

/-- Python `str.isspace` on the ASCII fragment. -/
def isSpaceChar (c : Char) : Bool :=
  (c == ' ') || (c == '\t') || (c == '\n') || (c == '\r') ||
  (c == '\x0b') || (c == '\x0c')

/-- Python `str.isalnum` on the ASCII fragment. -/
def isAlnumChar (c : Char) : Bool :=
  c.isAlpha || c.isDigit

/-- Loop of `Lexer.skip_whitespace`; the list argument is the remaining
input `s.text.drop s.pos`. -/
def swAux : List Char → LexerState → LexerState
  | [], s => s
  | c :: rest, s => if isSpaceChar c then swAux rest (advance s) else s

/-- `Lexer.skip_whitespace`. -/
def skip_whitespace (s : LexerState) : LexerState :=
  swAux (s.text.drop s.pos) s

/-- Characters the numeric loop consumes: digits and dots. -/
def numChar (c : Char) : Bool :=
  c.isDigit || (c == '.')

/-- Loop of `Lexer.g. get_number`; returns the captured run and the state
after it, the list argument being the remaining input. -/
def numAux : List Char → LexerState → List Char × LexerState
  | [], s => ([], s)
  | c :: rest, s =>
    if numChar c then
      let r := numAux rest (advance s)
      (c :: r.1, r.2)
    else ([], s)

/-- Decimal value of a digit string (Python `int`). -/
def natOfDigits (l : List Char) : ℕ :=
  l.foldl (fun a c => 10 * a + (c.toNat - '0'.toNat)) 0

/-- Exact decimal value of an integer-part/fraction-part split. -/
def decimalRat (ip fp : List Char) : ℚ :=
  (natOfDigits ip : ℚ) + (natOfDigits fp : ℚ) / (10 : ℚ) ^ fp.length

/-- Python `float(...)` restricted to the digit-and-dot runs `get_number`
captures: accepted iff it has at most one dot and at least one digit,
yielding the exact decimal value; otherwise `ValueError` (`none`). -/
def pyFloat (l : List Char) : Option ℚ :=
  if l.count '.' ≤ 1 ∧ l.any Char.isDigit then
    some (decimalRat (l.takeWhile (fun c => c != '.'))
      ((l.dropWhile (fun c => c != '.')).drop 1))
  else none

/-- `Lexer.get_number`: consume the digit-and-dot run; a run with a dot
goes through `float(...)` (which can raise `ValueError`), otherwise
through `int(...)`. -/
def get_number (s : LexerState) : Except Err (Token × LexerState) :=
  let r := numAux (s.text.drop s.pos) s
  if '.' ∈ r.1 then
    match pyFloat r.1 with
    | some q => .ok (⟨.FLOAT, .float q⟩, r.2)
    | none => .error .valueError
  else .ok (⟨.INTEGER, .int (natOfDigits r.1)⟩, r.2)

/-- The two-character escape decoding shared by strings and chars. -/
def escChar (e : Char) : Char :=
  if e == 'n' then '\n' else if e == 't' then '\t' else e

/-- Loop of `Lexer.get_string` (runs after the opening quote is skipped;
the list argument is the remaining input): stops at an unescaped `"` or at
end of buffer; a backslash as the very last character hits
`result += None`, a Python `TypeError`. -/
def strAux : List Char → LexerState → Except Err (List Char × LexerState)
  | [], s => .ok ([], s)
  | c :: rest, s =>
    if c == '"' then .ok ([], s)
    else if c == '\\' then
      match rest with
      | [] => .error .typeError
      | e :: rest' =>
        match strAux rest' (advance (advance s)) with
        | .ok (r, s') => .ok (escChar e :: r, s')
        | .error err => .error err
    else
      match strAux rest (advance s) with
      | .ok (r, s') => .ok (c :: r, s')
      | .error err => .error err

/-- Specification-level predicate on the text after a string literal's
opening quote: `true` iff the scan of `Lexer.get_string` reaches the end
of the buffer without meeting an unescaped closing `"` and without the
buffer ending in the middle of an escape (a final lone backslash, which
makes the source run `result += None`, a `TypeError`). -/
def scan_ok : List Char → Bool
  | [] => true
  | c :: r =>
    if c == '"' then false
    else if c == '\\' then
      match r with
      | [] => false
      | _ :: r' => scan_ok r'
    else scan_ok r

/-- Specification-level decoding of the text after the opening quote when
`scan_ok` holds: every remaining character with the two-character escapes
decoded. -/
def decodeRest : List Char → List Char
  | [] => []
  | c :: r =>
    if c == '"' then []
    else if c == '\\' then
      match r with
      | [] => []
      | e :: r' => escChar e :: decodeRest r'
    else c :: decodeRest r

/-- `Lexer.get_string`: skip the opening quote, run the scan loop, then
skip the closing quote (one final `advance`, performed even when the loop
stopped at end of buffer). -/
def get_string (s : LexerState) : Except Err (Token × LexerState) :=
  let s1 := advance s
  match strAux (s1.text.drop s1.pos) s1 with
  | .ok (r, s') => .ok (⟨.STRING, .str r⟩, advance s')
  | .error e => .error e

/-- `Lexer.get_char`: skip the opening quote, read one (possibly escaped)
character, then advance once more. Reading past the end of the buffer
yields a `None`-valued token, never an error, exactly as the source. -/
def get_char (s : LexerState) : Token × LexerState :=
  let s1 := advance s
  match current_char s1 with
  | some c =>
    if c == '\\' then
      let s2 := advance s1
      let v : PyVal :=
        match current_char s2 with
        | some e => .str [escChar e]
        | none => .none
      (⟨.CHAR, v⟩, advance s2)
    else (⟨.CHAR, .str [c]⟩, advance s1)
  | none => (⟨.CHAR, .none⟩, advance s1)

/-- Loop of `Lexer.get_identifier`; the list argument is the remaining
input. -/
def identAux : List Char → LexerState → List Char × LexerState
  | [], s => ([], s)
  | c :: rest, s =>
    if isAlnumChar c || (c == '_') then
      let r := identAux rest (advance s)
      (c :: r.1, r.2)
    else ([], s)

/-- The fixed reserved-word set of `Lexer.get_identifier`. -/
def keywords : List (List Char) :=
  (["if", "elif", "else", "match", "case", "for", "while", "fun", "var",
    "const", "bool", "char", "int", "float", "string", "enum", "struct",
    "list", "array", "True", "False", "return"]).map String.data

/-- `Lexer.get_identifier`: capture the alphanumeric-or-underscore run and
classify it against the reserved-word set. -/
def get_identifier (s : LexerState) : Token × LexerState :=
  let r := identAux (s.text.drop s.pos) s
  if r.1 ∈ keywords then (⟨.KEYWORD, .str r.1⟩, r.2)
  else (⟨.IDENTIFIER, .str r.1⟩, r.2)

/-- `Lexer.get_next_token`: skip whitespace, then dispatch on the current
character in the source's order; an unhandled character is the fatal
`Invalid character` error; at end of buffer an `EOF` token is returned
with the state unchanged. -/
def get_next_token (s0 : LexerState) : Except Err (Token × LexerState) :=
  let s := skip_whitespace s0
  match current_char s with
  | Option.none => .ok (⟨.EOF, .none⟩, s)
  | some c =>
    if c.isDigit then get_number s
    else if c == '+' then .ok (⟨.PLUS, .str ['+']⟩, advance s)
    else if c == '-' then .ok (⟨.MINUS, .str ['-']⟩, advance s)
    else if c == '*' then .ok (⟨.MULTIPLY, .str ['*']⟩, advance s)
    else if c == '/' then .ok (⟨.DIVIDE, .str ['/']⟩, advance s)
    else if c == '%' then .ok (⟨.MODULO, .str ['%']⟩, advance s)
    else if c == '(' then .ok (⟨.LPAREN, .str ['(']⟩, advance s)
    else if c == ')' then .ok (⟨.RPAREN, .str [')']⟩, advance s)
    else if c == '=' then .ok (⟨.ASSIGN, .str ['=']⟩, advance s)
    else if c == '"' then get_string s
    else if c == '\'' then .ok (get_char s)
    else if c == ',' then .ok (⟨.COMMA, .str [',']⟩, advance s)
    else if c.isAlpha || (c == '_') then .ok (get_identifier s)
    else .error .lexError

/-- The lexer on a fresh buffer (`Lexer.__init__`). -/
def initLexer (text : List Char) : LexerState :=
  ⟨text, 0⟩

/-- The maximal digit-or-dot run starting at the cursor — exactly what the
loop of `Lexer.get_number` captures. -/
def numRun (s : LexerState) : List Char :=
  (s.text.drop s.pos).takeWhile numChar

/-- The characters `Lexer.get_next_token` recognizes at dispatch, in the
source's branch order: a digit, the nine single-character operator and
delimiter branches, a string or char quote, a comma, and an
identifier-start character. -/
def recognizedChar (c : Char) : Bool :=
  c.isDigit || (c == '+') || (c == '-') || (c == '*') || (c == '/') ||
  (c == '%') || (c == '(') || (c == ')') || (c == '=') || (c == '"') ||
  (c == '\'') || (c == ',') || c.isAlpha || (c == '_')

/-- The AST node classes of `src/test.py`, as one tagged union. A block
(statement list) is a `List (Option Node)` because `Parser.statement`
returns Python `None` on a keyword it does not handle, and `Parser.block`
and `Parser.program` append that `None` to the list. `ElifNode` values
only ever occur in an `IfNode`'s `elifNodes` list. -/
inductive Node where
  | NumberNode (token : Token)
  | StringNode (token : Token)
  | CharNode (token : Token)
  | VariableNode (token : Token)
  | AssignNode (left : Node) (op : Token) (right : Node)
  | BinOpNode (left : Node) (op : Token) (right : Node)
  | UnaryOpNode (op : Token) (operand : Node)
  | ElifNode (condition : Node) (body : List (Option Node))
  | IfNode (condition : Node) (body : List (Option Node))
      (elifNodes : List Node) (elseBody : Option (List (Option Node)))
  | WhileNode (condition : Node) (body : List (Option Node))
  | ForNode (varName : PyVal) (start : Node) (stop : Node)
      (step : Option Node) (body : List (Option Node))
  | FunctionDefNode (name : PyVal) (params : List PyVal)
      (body : List (Option Node))
  | FunctionCallNode (name : Node) (arguments : List Node)
  | ReturnNode (value : Node)

/-- Parser state: the lexer it pulls from and the one-token lookahead
(`self.current_token`). -/
structure ParserState where
  lexer : LexerState
  current_token : Token

/-- `Parser.eat`: on a kind match pull the next token, otherwise the fatal
`Invalid syntax` error. -/
def eat (tt : TokenType) (s : ParserState) : Except Err ParserState :=
  if s.current_token.type = tt then
    match get_next_token s.lexer with
    | .ok (t, lx) => .ok ⟨lx, t⟩
    | .error e => .error e
  else .error .synError

/-- `Parser.variable`: build a `VariableNode` from the current token and
eat an `IDENTIFIER`. -/
def variable' (s : ParserState) : Except Err (Node × ParserState) :=
  match eat .IDENTIFIER s with
  | .ok s' => .ok (.VariableNode s.current_token, s')
  | .error e => .error e

/-- Keyword-text tokens the parser compares `current_token.value`
against. -/
def kwVal (w : String) : PyVal :=
  .str w.data

/-- The `.name` attribute read off the node `Parser.variable` returns
(`VariableNode.name` is its token's value; `variable'` only ever returns
a `VariableNode`, so the other cases are unreachable). -/
def varNameOf : Node → PyVal
  | .VariableNode t => t.value
  | _ => .none

mutual

/-- `Parser.factor`: literal, variable reference, or parenthesized
expression. -/
def factor : ℕ → ParserState → Except Err (Node × ParserState)
  | 0, _ => .error .fuelOut
  | n+1, s =>
    let token := s.current_token
    if token.type = .INTEGER then
      (eat .INTEGER s).map (fun s' => (.NumberNode token, s'))
    else if token.type = .FLOAT then
      (eat .FLOAT s).map (fun s' => (.NumberNode token, s'))
    else if token.type = .STRING then
      (eat .STRING s).map (fun s' => (.StringNode token, s'))
    else if token.type = .CHAR then
      (eat .CHAR s).map (fun s' => (.CharNode token, s'))
    else if token.type = .IDENTIFIER then
      (eat .IDENTIFIER s).map (fun s' => (.VariableNode token, s'))
    else if token.type = .LPAREN then do
      let s1 ← eat .LPAREN s
      let (node, s2) ← expr n s1
      let s3 ← eat .RPAREN s2
      .ok (node, s3)
    else .error .synError

/-- `Parser.term`: a factor followed by the `* / %` loop. -/
def term : ℕ → ParserState → Except Err (Node × ParserState)
  | 0, _ => .error .fuelOut
  | n+1, s => do
    let (node, s1) ← factor n s
    termLoop n node s1

/-- The `while`-loop of `Parser.term`: as long as the current token is
`* / %`, eat it (the source eats the specific kind it just matched, which
is the current token's own kind) and fold the next factor in on the
left. -/
def termLoop : ℕ → Node → ParserState → Except Err (Node × ParserState)
  | 0, _, _ => .error .fuelOut
  | n+1, node, s =>
    if s.current_token.type = .MULTIPLY ∨ s.current_token.type = .DIVIDE ∨
        s.current_token.type = .MODULO then do
      let op := s.current_token
      let s1 ← eat op.type s
      let (rhs, s2) ← factor n s1
      termLoop n (.BinOpNode node op rhs) s2
    else .ok (node, s)

/-- `Parser.expr`: a term followed by the `+ -` loop. -/
def expr : ℕ → ParserState → Except Err (Node × ParserState)
  | 0, _ => .error .fuelOut
  | n+1, s => do
    let (node, s1) ← term n s
    exprLoop n node s1

/-- The `while`-loop of `Parser.expr`: as long as the current token is
`+ -`, eat it and fold the next term in on the left. -/
def exprLoop : ℕ → Node → ParserState → Except Err (Node × ParserState)
  | 0, _, _ => .error .fuelOut
  | n+1, node, s =>
    if s.current_token.type = .PLUS ∨ s.current_token.type = .MINUS then do
      let op := s.current_token
      let s1 ← eat op.type s
      let (rhs, s2) ← term n s1
      exprLoop n (.BinOpNode node op rhs) s2
    else .ok (node, s)

/-- `Parser.statement`: dispatch on the current token. A `KEYWORD` other
than `if`/`while`/`for`/`return` matches none of the inner branches and
the Python function returns `None` without consuming anything; an
`IDENTIFIER` is disambiguated by peeking at the lexer's raw
`current_char`; anything else is `Invalid syntax`. -/
def statement : ℕ → ParserState → Except Err (Option Node × ParserState)
  | 0, _ => .error .fuelOut
  | n+1, s =>
    if s.current_token.type = .KEYWORD then
      if s.current_token.value = kwVal "if" then
        (if_statement n s).map (fun r => (some r.1, r.2))
      else if s.current_token.value = kwVal "while" then
        (while_statement n s).map (fun r => (some r.1, r.2))
      else if s.current_token.value = kwVal "for" then
        (for_statement n s).map (fun r => (some r.1, r.2))
      else if s.current_token.value = kwVal "return" then
        (return_statement n s).map (fun r => (some r.1, r.2))
      else .ok (none, s)
    else if s.current_token.type = .IDENTIFIER then
      if current_char s.lexer = some '(' then
        (function_call n s).map (fun r => (some r.1, r.2))
      else
        (assignment_statement n s).map (fun r => (some r.1, r.2))
    else .error .synError

/-- `Parser.return_statement`. -/
def return_statement : ℕ → ParserState → Except Err (Node × ParserState)
  | 0, _ => .error .fuelOut
  | n+1, s => do
    let s1 ← eat .KEYWORD s
    let (v, s2) ← expr n s1
    .ok (.ReturnNode v, s2)

/-- `Parser.function_call`. -/
def function_call : ℕ → ParserState → Except Err (Node × ParserState)
  | 0, _ => .error .fuelOut
  | n+1, s => do
    let (name, s1) ← variable' s
    let s2 ← eat .LPAREN s1
    let (args, s3) ← argument_list n s2
    let s4 ← eat .RPAREN s3
    .ok (.FunctionCallNode name args, s4)

/-- `Parser.argument_list`: empty if the current token is `)`, else a
first expression followed by the comma loop. -/
def argument_list : ℕ → ParserState → Except Err (List Node × ParserState)
  | 0, _ => .error .fuelOut
  | n+1, s =>
    if s.current_token.type ≠ .RPAREN then do
      let (a, s1) ← expr n s
      let (rest, s2) ← argLoop n s1
      .ok (a :: rest, s2)
    else .ok ([], s)

/-- The `while`-loop of `Parser.argument_list`. -/
def argLoop : ℕ → ParserState → Except Err (List Node × ParserState)
  | 0, _ => .error .fuelOut
  | n+1, s =>
    if s.current_token.type = .COMMA then do
      let s1 ← eat .COMMA s
      let (a, s2) ← expr n s1
      let (rest, s3) ← argLoop n s2
      .ok (a :: rest, s3)
    else .ok ([], s)

/-- `Parser.if_statement`: condition and block, the `elif` loop, then an
optional `else` block. -/
def if_statement : ℕ → ParserState → Except Err (Node × ParserState)
  | 0, _ => .error .fuelOut
  | n+1, s => do
    let s1 ← eat .KEYWORD s
    let (cond, s2) ← expr n s1
    let (body, s3) ← block n s2
    let (elifs, s4) ← elifLoop n s3
    if s4.current_token.type = .KEYWORD ∧
        s4.current_token.value = kwVal "else" then do
      let s5 ← eat .KEYWORD s4
      let (eb, s6) ← block n s5
      .ok (.IfNode cond body elifs (some eb), s6)
    else .ok (.IfNode cond body elifs none, s4)

/-- The `elif` `while`-loop of `Parser.if_statement`. -/
def elifLoop : ℕ → ParserState → Except Err (List Node × ParserState)
  | 0, _ => .error .fuelOut
  | n+1, s =>
    if s.current_token.type = .KEYWORD ∧
        s.current_token.value = kwVal "elif" then do
      let s1 ← eat .KEYWORD s
      let (c, s2) ← expr n s1
      let (b, s3) ← block n s2
      let (rest, s4) ← elifLoop n s3
      .ok (.ElifNode c b :: rest, s4)
    else .ok ([], s)

/-- `Parser.while_statement`. -/
def while_statement : ℕ → ParserState → Except Err (Node × ParserState)
  | 0, _ => .error .fuelOut
  | n+1, s => do
    let s1 ← eat .KEYWORD s
    let (cond, s2) ← expr n s1
    let (body, s3) ← block n s2
    .ok (.WhileNode cond body, s3)

/-- `Parser.for_statement`: `for ( ident = expr , expr [, expr] )` then a
block. -/
def for_statement : ℕ → ParserState → Except Err (Node × ParserState)
  | 0, _ => .error .fuelOut
  | n+1, s => do
    let s1 ← eat .KEYWORD s
    let s2 ← eat .LPAREN s1
    let (v, s3) ← variable' s2
    let s4 ← eat .ASSIGN s3
    let (start, s5) ← expr n s4
    let s6 ← eat .COMMA s5
    let (stop, s7) ← expr n s6
    if s7.current_token.type = .COMMA then do
      let s8 ← eat .COMMA s7
      let (step, s9) ← expr n s8
      let s10 ← eat .RPAREN s9
      let (body, s11) ← block n s10
      .ok (.ForNode (varNameOf v) start stop (some step) body, s11)
    else do
      let s8 ← eat .RPAREN s7
      let (body, s9) ← block n s8
      .ok (.ForNode (varNameOf v) start stop none body, s9)

/-- `Parser.function_definition` (only called from `Parser.program`). -/
def function_definition : ℕ → ParserState → Except Err (Node × ParserState)
  | 0, _ => .error .fuelOut
  | n+1, s => do
    let s1 ← eat .KEYWORD s
    let (v, s2) ← variable' s1
    let s3 ← eat .LPAREN s2
    let (params, s4) ← parameter_list n s3
    let s5 ← eat .RPAREN s4
    let (body, s6) ← block n s5
    .ok (.FunctionDefNode (varNameOf v) params body, s6)

/-- `Parser.parameter_list`: empty unless the current token is an
identifier, else a first name followed by the comma loop. -/
def parameter_list : ℕ → ParserState → Except Err (List PyVal × ParserState)
  | 0, _ => .error .fuelOut
  | n+1, s =>
    if s.current_token.type = .IDENTIFIER then do
      let (v, s1) ← variable' s
      let (rest, s2) ← paramLoop n s1
      .ok (varNameOf v :: rest, s2)
    else .ok ([], s)

/-- The `while`-loop of `Parser.parameter_list`. -/
def paramLoop : ℕ → ParserState → Except Err (List PyVal × ParserState)
  | 0, _ => .error .fuelOut
  | n+1, s =>
    if s.current_token.type = .COMMA then do
      let s1 ← eat .COMMA s
      let (v, s2) ← variable' s1
      let (rest, s3) ← paramLoop n s2
      .ok (varNameOf v :: rest, s3)
    else .ok ([], s)

/-- `Parser.assignment_statement`: `identifier = expr`. -/
def assignment_statement : ℕ → ParserState → Except Err (Node × ParserState)
  | 0, _ => .error .fuelOut
  | n+1, s => do
    let (left, s1) ← variable' s
    let op := s1.current_token
    let s2 ← eat .ASSIGN s1
    let (right, s3) ← expr n s2
    .ok (.AssignNode left op right, s3)

/-- `Parser.block`: statements until end-of-stream; there is no other
terminator. -/
def block : ℕ → ParserState → Except Err (List (Option Node) × ParserState)
  | 0, _ => .error .fuelOut
  | n+1, s =>
    if s.current_token.type ≠ .EOF then do
      let (st, s1) ← statement n s
      let (rest, s2) ← block n s1
      .ok (st :: rest, s2)
    else .ok ([], s)

/-- `Parser.program`: top-level constructs until end-of-stream; only here
is `fun` recognized, everything else goes through `statement`. -/
def program : ℕ → ParserState → Except Err (List (Option Node) × ParserState)
  | 0, _ => .error .fuelOut
  | n+1, s =>
    if s.current_token.type ≠ .EOF then
      if s.current_token.type = .KEYWORD ∧
          s.current_token.value = kwVal "fun" then do
        let (f, s1) ← function_definition n s
        let (rest, s2) ← program n s1
        .ok (some f :: rest, s2)
      else do
        let (st, s1) ← statement n s
        let (rest, s2) ← program n s1
        .ok (st :: rest, s2)
    else .ok ([], s)

end

/-- `Parser.__init__`: pull the first token (which can already raise a
lexical error). -/
def initParser (text : List Char) : Except Err ParserState :=
  match get_next_token (initLexer text) with
  | .ok (t, lx) => .ok ⟨lx, t⟩
  | .error e => .error e

/-- Parse a whole buffer with `Parser.program`, returning the list of
top-level nodes (the final state dropped, as in the source's driver). -/
def parseProgram (fuel : ℕ) (text : List Char) :
    Except Err (List (Option Node)) :=
  match initParser text with
  | .ok st => (program fuel st).map Prod.fst
  | .error e => .error e

/-- Parse a buffer with the `Parser.expr` entry point, returning the
expression node. -/
def parseExpr (fuel : ℕ) (text : List Char) : Except Err Node :=
  match initParser text with
  | .ok st => (expr fuel st).map Prod.fst
  | .error e => .error e

/-- Parse a buffer with the `Parser.statement` entry point, returning the
statement (or Python `None`). -/
def parseStatement (fuel : ℕ) (text : List Char) :
    Except Err (Option Node) :=
  match initParser text with
  | .ok st => (statement fuel st).map Prod.fst
  | .error e => .error e

/-- Left-nested tree built by folding a chain of (operator, right-operand)
pairs onto a seed from the left — the shape a left-associative operator
loop produces. -/
def leftNest (a : Node) (L : List (Token × Node)) : Node :=
  L.foldl (fun acc p => .BinOpNode acc p.1 p.2) a

/-- The parser state after `Parser.__init__` on the buffer
`var x = 10` (the opening line of the source file's own example): the
lookahead is the keyword token `var` and the cursor sits after it. -/
def stVar : ParserState :=
  ⟨⟨"var x = 10".data, 3⟩, ⟨.KEYWORD, .str ['v', 'a', 'r']⟩⟩

/-! ### Helper lemmas -/

theorem except_bind_ok {α β : Type} {x : Except Err α} {f : α → Except Err β}
    {b : β} : (x >>= f) = .ok b ↔ ∃ a, x = .ok a ∧ f a = .ok b := by
  cases x <;> simp [Bind.bind, Except.bind]

theorem except_bind_error {α β : Type} (e : Err) (f : α → Except Err β) :
    ((Except.error e : Except Err α) >>= f) = .error e := rfl

theorem except_ok_bind {α β : Type} (a : α) (f : α → Except Err β) :
    ((Except.ok a : Except Err α) >>= f) = f a := rfl

theorem isSpaceChar_eq_false_of_isDigit {c : Char} (h : c.isDigit = true) :
    isSpaceChar c = false := by
  unfold isSpaceChar
  simp only [Bool.or_eq_false_iff, beq_eq_false_iff_ne, ne_eq]
  refine ⟨⟨⟨⟨⟨?_, ?_⟩, ?_⟩, ?_⟩, ?_⟩, ?_⟩ <;> rintro rfl <;> simp_all

theorem current_char_none {s : LexerState} (h : s.text.length ≤ s.pos) :
    current_char s = none :=
  List.getElem?_eq_none h

theorem current_char_some_head {s : LexerState} {c : Char} {r : List Char}
    (h : s.text.drop s.pos = c :: r) : current_char s = some c := by
  have h0 : (s.text.drop s.pos)[0]? = s.text[s.pos]? := by
    rw [List.getElem?_drop, Nat.add_zero]
  rw [h] at h0
  simpa [current_char] using h0.symm

theorem skip_whitespace_at_end {s : LexerState} (h : s.text.length ≤ s.pos) :
    skip_whitespace s = s := by
  unfold skip_whitespace
  rw [List.drop_eq_nil_of_le h]
  rfl

theorem skip_whitespace_nospace {s : LexerState} {c : Char}
    (h : current_char s = some c) (hns : isSpaceChar c = false) :
    skip_whitespace s = s := by
  unfold skip_whitespace
  cases hd : s.text.drop s.pos with
  | nil => rfl
  | cons x xs =>
    have hx : x = c := by
      have := current_char_some_head hd
      rw [h] at this
      exact Option.some.inj this.symm
    subst hx
    simp [swAux, hns]

theorem get_next_token_at_end (s : LexerState) (h : s.text.length ≤ s.pos) :
    get_next_token s = .ok (⟨.EOF, .none⟩, s) := by
  simp only [get_next_token]
  rw [skip_whitespace_at_end h, current_char_none h]

theorem numAux_eq (rest : List Char) (s : LexerState) :
    numAux rest s =
      (rest.takeWhile numChar,
        ⟨s.text, s.pos + (rest.takeWhile numChar).length⟩) := by
  induction rest generalizing s with
  | nil => simp [numAux]
  | cons c r ih =>
    by_cases h : numChar c
    · simp [numAux, h, ih, List.takeWhile_cons, advance, LexerState.mk.injEq]
      omega
    · simp [numAux, h, List.takeWhile_cons]

theorem takeWhile_middle {p : Char → Bool} (a b : List Char) (x : Char)
    (ha : ∀ c ∈ a, p c = true) (hx : p x = false) :
    (a ++ x :: b).takeWhile p = a ∧ (a ++ x :: b).dropWhile p = x :: b := by
  induction a with
  | nil => simp [List.takeWhile_cons, List.dropWhile_cons, hx]
  | cons c r ih =>
    have hc : p c = true := ha c (List.mem_cons_self c r)
    have hr : ∀ c ∈ r, p c = true := fun d hd => ha d (List.mem_cons_of_mem c hd)
    obtain ⟨h1, h2⟩ := ih hr
    simp [List.takeWhile_cons, List.dropWhile_cons, hc, h1, h2]

theorem strAux_ok_aux :
    ∀ (n : ℕ) (rest : List Char), rest.length ≤ n →
      ∀ s : LexerState, scan_ok rest = true →
        strAux rest s = .ok (decodeRest rest, ⟨s.text, s.pos + rest.length⟩) := by
  intro n
  induction n with
  | zero =>
    intro rest hl s _
    have : rest = [] := List.eq_nil_of_length_eq_zero (by omega)
    subst this
    simp [strAux, decodeRest]
  | succ n ih =>
    intro rest hl s hs
    cases rest with
    | nil => simp [strAux, decodeRest]
    | cons c r =>
      by_cases hq : c = '"'
      · subst hq
        rw [scan_ok.eq_def] at hs
        simp at hs
      · by_cases hb : c = '\\'
        · subst hb
          cases r with
          | nil =>
            rw [scan_ok.eq_def] at hs
            simp at hs
          | cons e r' =>
            have hs' : scan_ok r' = true := by
              rw [scan_ok.eq_def] at hs
              simpa using hs
            have hlen : r'.length ≤ n := by
              simp only [List.length_cons] at hl
              omega
            have hrec := ih r' hlen (advance (advance s)) hs'
            simp only [advance] at hrec
            rw [strAux.eq_def, decodeRest.eq_def]
            simp [hrec, advance, LexerState.mk.injEq, List.length_cons]
            omega
        · have hs' : scan_ok r = true := by
            rw [scan_ok.eq_def] at hs
            simpa [hq, hb] using hs
          have hlen : r.length ≤ n := by
            simp only [List.length_cons] at hl
            omega
          have hrec := ih r hlen (advance s) hs'
          simp only [advance] at hrec
          rw [strAux.eq_def, decodeRest.eq_def]
          simp [hq, hb, hrec, advance, LexerState.mk.injEq, List.length_cons]
          omega

theorem strAux_ok (rest : List Char) (s : LexerState)
    (hs : scan_ok rest = true) :
    strAux rest s = .ok (decodeRest rest, ⟨s.text, s.pos + rest.length⟩) :=
  strAux_ok_aux rest.length rest le_rfl s hs

theorem block_ok_eof :
    ∀ (n : ℕ) (s : ParserState) (l : List (Option Node)) (s' : ParserState),
      block n s = .ok (l, s') → s'.current_token.type = .EOF := by
  intro n
  induction n with
  | zero =>
    intro s l s' h
    simp [block] at h
  | succ n ih =>
    intro s l s' h
    rw [block.eq_def] at h
    by_cases he : s.current_token.type = TokenType.EOF
    · simp only [he, ne_eq, not_true_eq_false, if_false] at h
      obtain ⟨rfl, rfl⟩ := by simpa using h
      exact he
    · simp only [he, if_true, ne_eq, not_false_iff] at h
      obtain ⟨⟨st, s1⟩, h1, h⟩ := except_bind_ok.mp h
      try dsimp only at h
      obtain ⟨⟨rest, s2⟩, h2, h⟩ := except_bind_ok.mp h
      try dsimp only at h
      obtain ⟨rfl, rfl⟩ : st :: rest = l ∧ s2 = s' := by
        simpa using h
      exact ih s1 rest _ h2

theorem statement_stVar (n : ℕ) :
    statement (n + 1) stVar = .ok (none, stVar) := rfl

theorem program_stVar : ∀ n : ℕ, program n stVar = .error .fuelOut := by
  intro n
  induction n with
  | zero => rfl
  | succ n ih =>
    cases n with
    | zero => rfl
    | succ m =>
      have hred : program (m + 1 + 1) stVar =
          (program (m + 1) stVar >>= fun x => .ok (Option.none :: x.1, x.2)) :=
        rfl
      rw [hred, ih, except_bind_error]

theorem exprLoop_left_nest :
    ∀ (n : ℕ) (a : Node) (s : ParserState) (r : Node) (s' : ParserState),
      exprLoop n a s = .ok (r, s') →
      ∃ L : List (Token × Node),
        (∀ p ∈ L, p.1.type = .PLUS ∨ p.1.type = .MINUS) ∧ r = leftNest a L := by
  intro n
  induction n with
  | zero =>
    intro a s r s' h
    simp [exprLoop] at h
  | succ n ih =>
    intro a s r s' h
    rw [exprLoop.eq_def] at h
    by_cases hc : s.current_token.type = TokenType.PLUS ∨
        s.current_token.type = TokenType.MINUS
    · simp only [hc, if_true] at h
      obtain ⟨s1, h1, h⟩ := except_bind_ok.mp h
      try dsimp only at h
      obtain ⟨⟨rhs, s2⟩, h2, h⟩ := except_bind_ok.mp h
      try dsimp only at h
      obtain ⟨L, hL, hfold⟩ := ih _ _ _ _ h
      refine ⟨(s.current_token, rhs) :: L, ?_, ?_⟩
      · intro p hp
        rcases List.mem_cons.mp hp with rfl | hp
        · exact hc
        · exact hL p hp
      · rw [hfold]
        simp [leftNest, List.foldl_cons]
    · simp only [hc, if_false] at h
      obtain ⟨rfl, rfl⟩ := by simpa using h
      exact ⟨[], by simp, by simp [leftNest]⟩

theorem termLoop_left_nest :
    ∀ (n : ℕ) (a : Node) (s : ParserState) (r : Node) (s' : ParserState),
      termLoop n a s = .ok (r, s') →
      ∃ L : List (Token × Node),
        (∀ p ∈ L, p.1.type = .MULTIPLY ∨ p.1.type = .DIVIDE ∨
          p.1.type = .MODULO) ∧ r = leftNest a L := by
  intro n
  induction n with
  | zero =>
    intro a s r s' h
    simp [termLoop] at h
  | succ n ih =>
    intro a s r s' h
    rw [termLoop.eq_def] at h
    by_cases hc : s.current_token.type = TokenType.MULTIPLY ∨
        s.current_token.type = TokenType.DIVIDE ∨
        s.current_token.type = TokenType.MODULO
    · simp only [hc, if_true] at h
      obtain ⟨s1, h1, h⟩ := except_bind_ok.mp h
      try dsimp only at h
      obtain ⟨⟨rhs, s2⟩, h2, h⟩ := except_bind_ok.mp h
      try dsimp only at h
      obtain ⟨L, hL, hfold⟩ := ih _ _ _ _ h
      refine ⟨(s.current_token, rhs) :: L, ?_, ?_⟩
      · intro p hp
        rcases List.mem_cons.mp hp with rfl | hp
        · exact hc
        · exact hL p hp
      · rw [hfold]
        simp [leftNest, List.foldl_cons]
    · simp only [hc, if_false] at h
      obtain ⟨rfl, rfl⟩ := by simpa using h
      exact ⟨[], by simp, by simp [leftNest]⟩

theorem c2_for_parse :
    parseProgram 9 ("for (i = 0, i - 5, i + 1) y = 10".data) =
      .ok [some (.ForNode (.str ['i'])
        (.NumberNode ⟨.INTEGER, .int 0⟩)
        (.BinOpNode (.VariableNode ⟨.IDENTIFIER, .str ['i']⟩) ⟨.MINUS, .str ['-']⟩
          (.NumberNode ⟨.INTEGER, .int 5⟩))
        (some (.BinOpNode (.VariableNode ⟨.IDENTIFIER, .str ['i']⟩) ⟨.PLUS, .str ['+']⟩
          (.NumberNode ⟨.INTEGER, .int 1⟩)))
        [some (.AssignNode (.VariableNode ⟨.IDENTIFIER, .str ['y']⟩) ⟨.ASSIGN, .str ['=']⟩
          (.NumberNode ⟨.INTEGER, .int 10⟩))])] := by
  have h0 : initParser ("for (i = 0, i - 5, i + 1) y = 10".data) =
      .ok ⟨⟨"for (i = 0, i - 5, i + 1) y = 10".data, 3⟩,
        ⟨.KEYWORD, .str ['f', 'o', 'r']⟩⟩ := rfl
  have e1 : eat .KEYWORD ⟨⟨"for (i = 0, i - 5, i + 1) y = 10".data, 3⟩,
      ⟨.KEYWORD, .str ['f', 'o', 'r']⟩⟩ =
      .ok ⟨⟨"for (i = 0, i - 5, i + 1) y = 10".data, 5⟩, ⟨.LPAREN, .str ['(']⟩⟩ := rfl
  have e2 : eat .LPAREN ⟨⟨"for (i = 0, i - 5, i + 1) y = 10".data, 5⟩,
      ⟨.LPAREN, .str ['(']⟩⟩ =
      .ok ⟨⟨"for (i = 0, i - 5, i + 1) y = 10".data, 6⟩, ⟨.IDENTIFIER, .str ['i']⟩⟩ := rfl
  have v3 : variable' ⟨⟨"for (i = 0, i - 5, i + 1) y = 10".data, 6⟩,
      ⟨.IDENTIFIER, .str ['i']⟩⟩ =
      .ok (.VariableNode ⟨.IDENTIFIER, .str ['i']⟩,
        ⟨⟨"for (i = 0, i - 5, i + 1) y = 10".data, 8⟩, ⟨.ASSIGN, .str ['=']⟩⟩) := rfl
  have e4 : eat .ASSIGN ⟨⟨"for (i = 0, i - 5, i + 1) y = 10".data, 8⟩,
      ⟨.ASSIGN, .str ['=']⟩⟩ =
      .ok ⟨⟨"for (i = 0, i - 5, i + 1) y = 10".data, 10⟩, ⟨.INTEGER, .int 0⟩⟩ := rfl
  have x5 : expr 6 ⟨⟨"for (i = 0, i - 5, i + 1) y = 10".data, 10⟩,
      ⟨.INTEGER, .int 0⟩⟩ =
      .ok (.NumberNode ⟨.INTEGER, .int 0⟩,
        ⟨⟨"for (i = 0, i - 5, i + 1) y = 10".data, 11⟩, ⟨.COMMA, .str [',']⟩⟩) := rfl
  have e6 : eat .COMMA ⟨⟨"for (i = 0, i - 5, i + 1) y = 10".data, 11⟩,
      ⟨.COMMA, .str [',']⟩⟩ =
      .ok ⟨⟨"for (i = 0, i - 5, i + 1) y = 10".data, 13⟩, ⟨.IDENTIFIER, .str ['i']⟩⟩ := rfl
  have x7 : expr 6 ⟨⟨"for (i = 0, i - 5, i + 1) y = 10".data, 13⟩,
      ⟨.IDENTIFIER, .str ['i']⟩⟩ =
      .ok (.BinOpNode (.VariableNode ⟨.IDENTIFIER, .str ['i']⟩) ⟨.MINUS, .str ['-']⟩
          (.NumberNode ⟨.INTEGER, .int 5⟩),
        ⟨⟨"for (i = 0, i - 5, i + 1) y = 10".data, 18⟩, ⟨.COMMA, .str [',']⟩⟩) := rfl
  have e8 : eat .COMMA ⟨⟨"for (i = 0, i - 5, i + 1) y = 10".data, 18⟩,
      ⟨.COMMA, .str [',']⟩⟩ =
      .ok ⟨⟨"for (i = 0, i - 5, i + 1) y = 10".data, 20⟩, ⟨.IDENTIFIER, .str ['i']⟩⟩ := rfl
  have x9 : expr 6 ⟨⟨"for (i = 0, i - 5, i + 1) y = 10".data, 20⟩,
      ⟨.IDENTIFIER, .str ['i']⟩⟩ =
      .ok (.BinOpNode (.VariableNode ⟨.IDENTIFIER, .str ['i']⟩) ⟨.PLUS, .str ['+']⟩
          (.NumberNode ⟨.INTEGER, .int 1⟩),
        ⟨⟨"for (i = 0, i - 5, i + 1) y = 10".data, 25⟩, ⟨.RPAREN, .str [')']⟩⟩) := rfl
  have e10 : eat .RPAREN ⟨⟨"for (i = 0, i - 5, i + 1) y = 10".data, 25⟩,
      ⟨.RPAREN, .str [')']⟩⟩ =
      .ok ⟨⟨"for (i = 0, i - 5, i + 1) y = 10".data, 27⟩, ⟨.IDENTIFIER, .str ['y']⟩⟩ := rfl
  have b11 : block 6 ⟨⟨"for (i = 0, i - 5, i + 1) y = 10".data, 27⟩,
      ⟨.IDENTIFIER, .str ['y']⟩⟩ =
      .ok ([some (.AssignNode (.VariableNode ⟨.IDENTIFIER, .str ['y']⟩) ⟨.ASSIGN, .str ['=']⟩
          (.NumberNode ⟨.INTEGER, .int 10⟩))],
        ⟨⟨"for (i = 0, i - 5, i + 1) y = 10".data, 32⟩, ⟨.EOF, .none⟩⟩) := rfl
  have hfor : for_statement 7 ⟨⟨"for (i = 0, i - 5, i + 1) y = 10".data, 3⟩,
      ⟨.KEYWORD, .str ['f', 'o', 'r']⟩⟩ =
      .ok (.ForNode (.str ['i'])
        (.NumberNode ⟨.INTEGER, .int 0⟩)
        (.BinOpNode (.VariableNode ⟨.IDENTIFIER, .str ['i']⟩) ⟨.MINUS, .str ['-']⟩
          (.NumberNode ⟨.INTEGER, .int 5⟩))
        (some (.BinOpNode (.VariableNode ⟨.IDENTIFIER, .str ['i']⟩) ⟨.PLUS, .str ['+']⟩
          (.NumberNode ⟨.INTEGER, .int 1⟩)))
        [some (.AssignNode (.VariableNode ⟨.IDENTIFIER, .str ['y']⟩) ⟨.ASSIGN, .str ['=']⟩
          (.NumberNode ⟨.INTEGER, .int 10⟩))],
        ⟨⟨"for (i = 0, i - 5, i + 1) y = 10".data, 32⟩, ⟨.EOF, .none⟩⟩) := by
    rw [show (7 : ℕ) = Nat.succ 6 from rfl, for_statement.eq_2]
    simp +decide [e1, e2, v3, e4, x5, e6, x7, e8, x9, e10, b11, varNameOf, except_ok_bind]
  have hstmt : statement 8 ⟨⟨"for (i = 0, i - 5, i + 1) y = 10".data, 3⟩,
      ⟨.KEYWORD, .str ['f', 'o', 'r']⟩⟩ =
      .ok (some (.ForNode (.str ['i'])
        (.NumberNode ⟨.INTEGER, .int 0⟩)
        (.BinOpNode (.VariableNode ⟨.IDENTIFIER, .str ['i']⟩) ⟨.MINUS, .str ['-']⟩
          (.NumberNode ⟨.INTEGER, .int 5⟩))
        (some (.BinOpNode (.VariableNode ⟨.IDENTIFIER, .str ['i']⟩) ⟨.PLUS, .str ['+']⟩
          (.NumberNode ⟨.INTEGER, .int 1⟩)))
        [some (.AssignNode (.VariableNode ⟨.IDENTIFIER, .str ['y']⟩) ⟨.ASSIGN, .str ['=']⟩
          (.NumberNode ⟨.INTEGER, .int 10⟩))]),
        ⟨⟨"for (i = 0, i - 5, i + 1) y = 10".data, 32⟩, ⟨.EOF, .none⟩⟩) := by
    rw [show (8 : ℕ) = Nat.succ 7 from rfl, statement.eq_2]
    simp +decide [hfor, kwVal, except_ok_bind, Except.map]
  have hp8 : program 8 (⟨⟨"for (i = 0, i - 5, i + 1) y = 10".data, 32⟩,
      ⟨.EOF, .none⟩⟩ : ParserState) =
      .ok ([], ⟨⟨"for (i = 0, i - 5, i + 1) y = 10".data, 32⟩, ⟨.EOF, .none⟩⟩) := rfl
  have hprog : program 9 ⟨⟨"for (i = 0, i - 5, i + 1) y = 10".data, 3⟩,
      ⟨.KEYWORD, .str ['f', 'o', 'r']⟩⟩ =
      .ok ([some (.ForNode (.str ['i'])
        (.NumberNode ⟨.INTEGER, .int 0⟩)
        (.BinOpNode (.VariableNode ⟨.IDENTIFIER, .str ['i']⟩) ⟨.MINUS, .str ['-']⟩
          (.NumberNode ⟨.INTEGER, .int 5⟩))
        (some (.BinOpNode (.VariableNode ⟨.IDENTIFIER, .str ['i']⟩) ⟨.PLUS, .str ['+']⟩
          (.NumberNode ⟨.INTEGER, .int 1⟩)))
        [some (.AssignNode (.VariableNode ⟨.IDENTIFIER, .str ['y']⟩) ⟨.ASSIGN, .str ['=']⟩
          (.NumberNode ⟨.INTEGER, .int 10⟩))])],
        ⟨⟨"for (i = 0, i - 5, i + 1) y = 10".data, 32⟩, ⟨.EOF, .none⟩⟩) := by
    rw [show (9 : ℕ) = Nat.succ 8 from rfl, program.eq_2]
    simp +decide [hstmt, hp8, kwVal, except_ok_bind, Except.map]
  simp only [parseProgram, h0, hprog, Except.map]


/-! ### Claim theorems -/

/-- C1: the claim says every call to the top-level parse entry point
(`Parser.program`) terminates, returning the complete AST or raising.
The code violates this: on the buffer `var x = 10` (the first statement of
the source file's own usage example) `Parser.statement` sees the keyword
`var`, matches none of its branches, and returns `None` without consuming
a token, so `Parser.program` appends `None` forever.  In the fuel model:
the parse runs out of fuel for every fuel, i.e. it never returns and never
raises. -/
theorem claim1_program_diverges_on_var :
    ∀ fuel : ℕ, parseProgram fuel ("var x = 10".data) = .error .fuelOut := by
  intro fuel
  have hinit : initParser ("var x = 10".data) = .ok stVar := rfl
  simp only [parseProgram, hinit, program_stVar]
  rfl

/-- C2 counterexample: parsing the claim's own example
`for (i = 0, i < 5, i = i + 1)` followed by the single-statement body
`y = 10` does not yield a bounded for-loop node: `<` is not a recognized
character, so the parse raises the lexical error instead. -/
theorem claim2_counterexample :
    parseProgram 100 ("for (i = 0, i < 5, i = i + 1) y = 10".data) =
      .error .lexError := rfl

/-- C2 (amended): whenever block parsing succeeds the resulting state's
lookahead is the end-of-stream token, i.e. a construct's body contains
exactly the statements following its header up to end-of-stream; and for a
for-header within the grammar (the claim's `i < 5` and `i = i + 1` are not
parseable: `<` is unlexable and an assignment is not an expression),
e.g. `for (i = 0, i - 5, i + 1)` followed by `y = 10`, the parse yields a
bounded for-loop node with variable `i`, start literal 0, an end
expression, a step expression, and a body holding the following statement
up to end-of-stream. -/
theorem claim2_block_to_end_of_stream :
    (∀ (n : ℕ) (s : ParserState) (l : List (Option Node)) (s' : ParserState),
        block n s = .ok (l, s') → s'.current_token.type = .EOF)
    ∧ parseProgram 9 ("for (i = 0, i - 5, i + 1) y = 10".data) =
        .ok [some (.ForNode (.str ['i'])
          (.NumberNode ⟨.INTEGER, .int 0⟩)
          (.BinOpNode (.VariableNode ⟨.IDENTIFIER, .str ['i']⟩) ⟨.MINUS, .str ['-']⟩
            (.NumberNode ⟨.INTEGER, .int 5⟩))
          (some (.BinOpNode (.VariableNode ⟨.IDENTIFIER, .str ['i']⟩) ⟨.PLUS, .str ['+']⟩
            (.NumberNode ⟨.INTEGER, .int 1⟩)))
          [some (.AssignNode (.VariableNode ⟨.IDENTIFIER, .str ['y']⟩) ⟨.ASSIGN, .str ['=']⟩
            (.NumberNode ⟨.INTEGER, .int 10⟩))])] :=
  ⟨block_ok_eof, c2_for_parse⟩

/-- C2 witness: the block property applied at the empty buffer's
end-of-stream state. -/
theorem claim2_witness :
    (⟨⟨[], 0⟩, ⟨.EOF, .none⟩⟩ : ParserState).current_token.type = .EOF :=
  claim2_block_to_end_of_stream.1 1 ⟨⟨[], 0⟩, ⟨.EOF, .none⟩⟩ []
    ⟨⟨[], 0⟩, ⟨.EOF, .none⟩⟩ rfl

/-- C3: when the character the lexer lands on after skipping whitespace is
outside the recognized classes, `get_next_token` raises the fatal lexical
error and produces no token; when `Parser.eat` expects a token kind and
the lookahead has a different one, it raises the fatal syntax error.
Concretely, lexing `@` raises the lexical error and parsing `(1` (a
missing closing parenthesis) raises the syntax error.  Fail-fast with no
recovery is structural: every result is a single `Except` value, so only
the first error is ever observed. -/
theorem claim3_fatal_errors :
    (∀ (s : LexerState) (c : Char),
        current_char (skip_whitespace s) = some c → recognizedChar c = false →
        get_next_token s = .error .lexError)
    ∧ (∀ (tt : TokenType) (s : ParserState), s.current_token.type ≠ tt →
        eat tt s = .error .synError)
    ∧ get_next_token (initLexer ['@']) = .error .lexError
    ∧ parseExpr 20 ("(1".data) = .error .synError := by
  refine ⟨?_, ?_, rfl, rfl⟩
  · intro s c h hr
    simp only [recognizedChar, Bool.or_eq_false_iff] at hr
    obtain ⟨⟨⟨⟨⟨⟨⟨⟨⟨⟨⟨⟨⟨h1, h2⟩, h3⟩, h4⟩, h5⟩, h6⟩, h7⟩, h8⟩, h9⟩,
      h10⟩, h11⟩, h12⟩, h13⟩, h14⟩ := hr
    simp only [get_next_token]
    rw [h]
    simp [h1, h2, h3, h4, h5, h6, h7, h8, h9, h10, h11, h12, h13, h14]
  · intro tt s h
    simp [eat, h]

/-- C3 witness: the two error rules applied at `@` and at an end-of-stream
lookahead where `)` is expected. -/
theorem claim3_witness :
    get_next_token (initLexer ['@']) = .error .lexError
    ∧ eat .RPAREN (⟨⟨['('], 1⟩, ⟨.EOF, .none⟩⟩ : ParserState) =
        .error .synError :=
  ⟨claim3_fatal_errors.1 (initLexer ['@']) '@' rfl rfl,
    claim3_fatal_errors.2.1 .RPAREN ⟨⟨['('], 1⟩, ⟨.EOF, .none⟩⟩ (by decide)⟩

/-- C4 counterexample: the claim says malformed numeric text never raises;
but on `1.2.3` the lexer consumes the whole run and then `float("1.2.3")`
raises a `ValueError`. -/
theorem claim4_counterexample :
    get_next_token (initLexer ("1.2.3".data)) = .error .valueError := rfl

/-- C4 (amended): the numeric loop always consumes the entire maximal
digit-or-dot run; a run with no dot yields an integer token and a run with
exactly one dot yields a float token with the exact decimal value of the
captured run; but a run with two or more dots raises a `ValueError` from
the `float` conversion (not a lexical error), contrary to the claim's
`never raises`.  `1.5x` shows the run ending before an unconsumed
suffix. -/
theorem claim4_number_run :
    (∀ (rest : List Char) (s : LexerState),
        numAux rest s = (rest.takeWhile numChar,
          ⟨s.text, s.pos + (rest.takeWhile numChar).length⟩))
    ∧ (∀ s : LexerState, (numRun s).count '.' = 0 →
        get_number s = .ok (⟨.INTEGER, .int (natOfDigits (numRun s))⟩,
          ⟨s.text, s.pos + (numRun s).length⟩))
    ∧ (∀ s : LexerState, (numRun s).count '.' = 1 →
        (numRun s).any Char.isDigit = true →
        get_number s = .ok (⟨.FLOAT, .float (decimalRat
            ((numRun s).takeWhile (fun c => c != '.'))
            (((numRun s).dropWhile (fun c => c != '.')).drop 1))⟩,
          ⟨s.text, s.pos + (numRun s).length⟩))
    ∧ (∀ s : LexerState, 2 ≤ (numRun s).count '.' →
        get_number s = .error .valueError)
    ∧ get_next_token (initLexer ("1.5x".data)) =
        .ok (⟨.FLOAT, .float (decimalRat ['1'] ['5'])⟩, ⟨"1.5x".data, 3⟩)
    ∧ get_next_token (initLexer ("1..2".data)) = .error .valueError := by
  refine ⟨numAux_eq, ?_, ?_, ?_, rfl, rfl⟩
  · intro s h
    have hnot : '.' ∉ numRun s := List.count_eq_zero.mp h
    simp only [get_number, numAux_eq]
    rw [if_neg (by simpa [numRun] using hnot)]
    rfl
  · intro s h1 h2
    have hmem : '.' ∈ numRun s := List.count_pos_iff.mp (by omega)
    simp only [get_number, numAux_eq]
    rw [if_pos (by simpa [numRun] using hmem)]
    unfold pyFloat
    rw [if_pos ⟨by simpa [numRun] using le_of_eq h1, by simpa [numRun] using h2⟩]
    rfl
  · intro s h
    have hmem : '.' ∈ numRun s := List.count_pos_iff.mp (by omega)
    simp only [get_number, numAux_eq]
    rw [if_pos (by simpa [numRun] using hmem)]
    unfold pyFloat
    rw [if_neg (by
      intro hc
      have := hc.1
      simp only [numRun] at h
      omega)]

/-- C4 witness: the three run shapes at `12`, `1.5` and `1..2`. -/
theorem claim4_witness :
    get_number (initLexer ("12".data)) =
      .ok (⟨.INTEGER, .int 12⟩, ⟨"12".data, 2⟩)
    ∧ get_number (initLexer ("1.5".data)) =
      .ok (⟨.FLOAT, .float (decimalRat ['1'] ['5'])⟩, ⟨"1.5".data, 3⟩)
    ∧ get_number (initLexer ("1..2".data)) = .error .valueError :=
  ⟨claim4_number_run.2.1 (initLexer ("12".data)) (by decide),
    claim4_number_run.2.2.1 (initLexer ("1.5".data)) (by decide) (by decide),
    claim4_number_run.2.2.2.1 (initLexer ("1..2".data)) (by decide)⟩

/-- C5: with an identifier in statement position, `Parser.statement`
dispatches on the lexer's raw next unconsumed character: `(` selects a
function-call statement, anything else an assignment; and parsing
`add(5, 3)` as a statement yields a function-call node named `add` with
exactly the two argument literals 5 and 3. -/
theorem claim5_identifier_dispatch :
    (∀ (n : ℕ) (s : ParserState), s.current_token.type = .IDENTIFIER →
        statement (n + 1) s =
          if current_char s.lexer = some '(' then
            (function_call n s).map (fun r => (some r.1, r.2))
          else
            (assignment_statement n s).map (fun r => (some r.1, r.2)))
    ∧ parseStatement 8 ("add(5, 3)".data) =
        .ok (some (.FunctionCallNode
          (.VariableNode ⟨.IDENTIFIER, .str ['a', 'd', 'd']⟩)
          [.NumberNode ⟨.INTEGER, .int 5⟩, .NumberNode ⟨.INTEGER, .int 3⟩])) := by
  refine ⟨?_, rfl⟩
  intro n s h
  rw [statement.eq_def]
  simp [h]

/-- C5 witness: the dispatch rule applied at the initial parser state of
`add(5, 3)`. -/
theorem claim5_witness :
    statement 8 (⟨⟨"add(5, 3)".data, 3⟩, ⟨.IDENTIFIER, .str ['a', 'd', 'd']⟩⟩ :
        ParserState) =
      if current_char (⟨⟨"add(5, 3)".data, 3⟩,
          ⟨.IDENTIFIER, .str ['a', 'd', 'd']⟩⟩ : ParserState).lexer = some '(' then
        (function_call 7 ⟨⟨"add(5, 3)".data, 3⟩,
          ⟨.IDENTIFIER, .str ['a', 'd', 'd']⟩⟩).map (fun r => (some r.1, r.2))
      else
        (assignment_statement 7 ⟨⟨"add(5, 3)".data, 3⟩,
          ⟨.IDENTIFIER, .str ['a', 'd', 'd']⟩⟩).map (fun r => (some r.1, r.2)) :=
  claim5_identifier_dispatch.1 7
    ⟨⟨"add(5, 3)".data, 3⟩, ⟨.IDENTIFIER, .str ['a', 'd', 'd']⟩⟩ rfl

/-- C6: both operator loops are left-associative: whatever the `+ -` loop
of `Parser.expr` (resp. the `* / %` loop of `Parser.term`) returns is the
left fold of the encountered (operator, operand) chain onto the seed, so
every chain nests to the left; and parsing `1 - 2 - 3` yields the tree
`(1 - 2) - 3`. -/
theorem claim6_left_associativity :
    (∀ (n : ℕ) (a : Node) (s : ParserState) (r : Node) (s' : ParserState),
        exprLoop n a s = .ok (r, s') →
        ∃ L : List (Token × Node),
          (∀ p ∈ L, p.1.type = .PLUS ∨ p.1.type = .MINUS) ∧ r = leftNest a L)
    ∧ (∀ (n : ℕ) (a : Node) (s : ParserState) (r : Node) (s' : ParserState),
        termLoop n a s = .ok (r, s') →
        ∃ L : List (Token × Node),
          (∀ p ∈ L, p.1.type = .MULTIPLY ∨ p.1.type = .DIVIDE ∨
            p.1.type = .MODULO) ∧ r = leftNest a L)
    ∧ parseExpr 6 ("1 - 2 - 3".data) =
        .ok (.BinOpNode
          (.BinOpNode (.NumberNode ⟨.INTEGER, .int 1⟩) ⟨.MINUS, .str ['-']⟩
            (.NumberNode ⟨.INTEGER, .int 2⟩))
          ⟨.MINUS, .str ['-']⟩ (.NumberNode ⟨.INTEGER, .int 3⟩)) :=
  ⟨exprLoop_left_nest, termLoop_left_nest, rfl⟩

/-- C6 witness: the two loop lemmas applied at one-step concrete runs. -/
theorem claim6_witness :
    (∃ L : List (Token × Node),
      (∀ p ∈ L, p.1.type = .PLUS ∨ p.1.type = .MINUS) ∧
      .BinOpNode (.NumberNode ⟨.INTEGER, .int 1⟩) ⟨.MINUS, .str ['-']⟩
        (.NumberNode ⟨.INTEGER, .int 2⟩) =
        leftNest (.NumberNode ⟨.INTEGER, .int 1⟩) L)
    ∧ (∃ L : List (Token × Node),
      (∀ p ∈ L, p.1.type = .MULTIPLY ∨ p.1.type = .DIVIDE ∨
        p.1.type = .MODULO) ∧
      .BinOpNode (.NumberNode ⟨.INTEGER, .int 3⟩) ⟨.MULTIPLY, .str ['*']⟩
        (.NumberNode ⟨.INTEGER, .int 2⟩) =
        leftNest (.NumberNode ⟨.INTEGER, .int 3⟩) L) :=
  ⟨claim6_left_associativity.1 10 (.NumberNode ⟨.INTEGER, .int 1⟩)
      ⟨⟨"- 2".data, 1⟩, ⟨.MINUS, .str ['-']⟩⟩
      (.BinOpNode (.NumberNode ⟨.INTEGER, .int 1⟩) ⟨.MINUS, .str ['-']⟩
        (.NumberNode ⟨.INTEGER, .int 2⟩))
      ⟨⟨"- 2".data, 3⟩, ⟨.EOF, .none⟩⟩ rfl,
    claim6_left_associativity.2.1 10 (.NumberNode ⟨.INTEGER, .int 3⟩)
      ⟨⟨"* 2".data, 1⟩, ⟨.MULTIPLY, .str ['*']⟩⟩
      (.BinOpNode (.NumberNode ⟨.INTEGER, .int 3⟩) ⟨.MULTIPLY, .str ['*']⟩
        (.NumberNode ⟨.INTEGER, .int 2⟩))
      ⟨⟨"* 2".data, 3⟩, ⟨.EOF, .none⟩⟩ rfl⟩

/-- C7 counterexample: the claim quantifies over every string of digits
with exactly one dot, and over every digit-only string; on `.5` the lexer
raises the lexical error (a leading dot does not start a number and `.` is
otherwise unrecognized), and on the empty digit-only string it returns the
end-of-stream token, not an integer literal. -/
theorem claim7_counterexample :
    get_next_token (initLexer (".5".data)) = .error .lexError
    ∧ get_next_token (initLexer ([] : List Char)) =
        .ok (⟨.EOF, .none⟩, ⟨[], 0⟩) :=
  ⟨rfl, rfl⟩

/-- C7 (amended): for every nonempty digit-only string the lexer returns
an integer token whose value is the denoted decimal integer; for every
digit-and-dot string with exactly one dot that starts with a digit it
returns a float token whose value is the denoted decimal number (modelled
exactly over `ℚ`). -/
theorem claim7_numeric_literals :
    (∀ ds : List Char, ds ≠ [] → (∀ c ∈ ds, c.isDigit = true) →
        get_next_token (initLexer ds) =
          .ok (⟨.INTEGER, .int (natOfDigits ds)⟩, ⟨ds, ds.length⟩))
    ∧ (∀ a b : List Char, a ≠ [] → (∀ c ∈ a, c.isDigit = true) →
        (∀ c ∈ b, c.isDigit = true) →
        get_next_token (initLexer (a ++ '.' :: b)) =
          .ok (⟨.FLOAT, .float ((natOfDigits a : ℚ) +
              (natOfDigits b : ℚ) / (10 : ℚ) ^ b.length)⟩,
            ⟨a ++ '.' :: b, (a ++ '.' :: b).length⟩)) := by
  constructor
  · intro ds hne hdig
    obtain ⟨d, rest, rfl⟩ := List.exists_cons_of_ne_nil hne
    have hd : d.isDigit = true := hdig d (List.mem_cons_self d rest)
    have hcc : current_char (initLexer (d :: rest)) = some d := by
      simp [current_char, initLexer]
    have hsw : skip_whitespace (initLexer (d :: rest)) = initLexer (d :: rest) :=
      skip_whitespace_nospace hcc (isSpaceChar_eq_false_of_isDigit hd)
    simp only [get_next_token, hsw]
    rw [hcc]
    simp only [hd, if_true]
    unfold get_number
    simp only [initLexer, List.drop_zero]
    rw [numAux_eq]
    have htw : (d :: rest).takeWhile numChar = d :: rest :=
      List.takeWhile_eq_self_iff.mpr (fun c hc => by simp [numChar, hdig c hc])
    rw [htw]
    have hnot : ¬('.' ∈ d :: rest) := fun hm => by
      have := hdig '.' hm
      simp at this
    simp [hnot]
  · intro a b hne hda hdb
    obtain ⟨a0, a', rfl⟩ := List.exists_cons_of_ne_nil hne
    have hd : a0.isDigit = true := hda a0 (List.mem_cons_self a0 a')
    have hcc : current_char (initLexer ((a0 :: a') ++ '.' :: b)) = some a0 := by
      simp [current_char, initLexer]
    have hsw : skip_whitespace (initLexer ((a0 :: a') ++ '.' :: b)) =
        initLexer ((a0 :: a') ++ '.' :: b) :=
      skip_whitespace_nospace hcc (isSpaceChar_eq_false_of_isDigit hd)
    simp only [get_next_token, hsw]
    rw [hcc]
    simp only [hd, if_true]
    unfold get_number
    simp only [initLexer, List.drop_zero]
    rw [numAux_eq]
    have htw : ((a0 :: a') ++ '.' :: b).takeWhile numChar =
        (a0 :: a') ++ '.' :: b := by
      refine List.takeWhile_eq_self_iff.mpr (fun c hc => ?_)
      rcases List.mem_append.mp hc with hca | hcb
      · simp [numChar, hda c hca]
      · rcases List.mem_cons.mp hcb with rfl | hcb
        · simp [numChar]
        · simp [numChar, hdb c hcb]
    rw [htw]
    have hmem : '.' ∈ (a0 :: a') ++ '.' :: b :=
      List.mem_append_right _ (List.mem_cons_self _ _)
    rw [if_pos hmem]
    have hnota : '.' ∉ a0 :: a' := fun hm => by
      have := hda '.' hm
      simp at this
    have hnotb : '.' ∉ b := fun hm => by
      have := hdb '.' hm
      simp at this
    have hcount : ((a0 :: a') ++ '.' :: b).count '.' = 1 := by
      rw [List.count_append]
      rw [List.count_eq_zero.mpr hnota]
      rw [List.count_cons_self]
      rw [List.count_eq_zero.mpr hnotb]
    have hany : ((a0 :: a') ++ '.' :: b).any Char.isDigit = true :=
      List.any_eq_true.mpr
        ⟨a0, List.mem_cons_self a0 a' |> List.mem_append_left _, hd⟩
    have hmid := takeWhile_middle (p := fun c => c != '.') (a0 :: a') b '.'
      (fun c hc => by
        have := hda c hc
        simp only [bne_iff_ne, ne_eq, decide_eq_true_eq]
        intro heq
        subst heq
        simp at this)
      (by decide)
    unfold pyFloat
    rw [if_pos ⟨by simp only [← List.cons_append, hcount]; omega, hany⟩]
    dsimp only
    rw [hmid.1, hmid.2]
    simp [decimalRat]

/-- C7 witness: the two rules at `12` and at `1.5`. -/
theorem claim7_witness :
    get_next_token (initLexer ['1', '2']) =
      .ok (⟨.INTEGER, .int (natOfDigits ['1', '2'])⟩,
        ⟨['1', '2'], (['1', '2'] : List Char).length⟩)
    ∧ get_next_token (initLexer (['1'] ++ '.' :: ['5'])) =
      .ok (⟨.FLOAT, .float ((natOfDigits ['1'] : ℚ) +
          (natOfDigits ['5'] : ℚ) / (10 : ℚ) ^ (['5'] : List Char).length)⟩,
        ⟨['1'] ++ '.' :: ['5'], ((['1'] ++ '.' :: ['5']) : List Char).length⟩) :=
  ⟨claim7_numeric_literals.1 ['1', '2'] (by decide) (by decide),
    claim7_numeric_literals.2 ['1'] ['5'] (by decide) (by decide) (by decide)⟩

/-- C8: the claim (and the source's own comment `# Skip closing quote`)
says char literals consume their closing quote.  String literals do:
`"a\nb"` lexes to the three characters `a`, newline, `b` with the cursor
past the closing quote (position 6 of 6).  Char literals decode their
escape correctly — `'\t'` lexes to a single tab — but `Lexer.get_char` is
one `advance` short, leaving the cursor ON the closing quote (position 3
of 4), so the next call lexes the closing quote as a fresh char literal
(here a `None`-valued CHAR token, with the cursor then two past the end)
instead of the end-of-stream token. -/
theorem claim8_char_closing_quote :
    get_next_token (initLexer ['"', 'a', '\\', 'n', 'b', '"']) =
      .ok (⟨.STRING, .str ['a', '\n', 'b']⟩, ⟨['"', 'a', '\\', 'n', 'b', '"'], 6⟩)
    ∧ get_next_token (initLexer ['\'', '\\', 't', '\'']) =
      .ok (⟨.CHAR, .str ['\t']⟩, ⟨['\'', '\\', 't', '\''], 3⟩)
    ∧ get_next_token (⟨['\'', '\\', 't', '\''], 3⟩ : LexerState) =
      .ok (⟨.CHAR, .none⟩, ⟨['\'', '\\', 't', '\''], 5⟩) :=
  ⟨rfl, rfl, rfl⟩

/-- C9: once the cursor has reached the end of the buffer, every call to
`Lexer.get_next_token` returns the end-of-stream token with the state
unchanged — so repeated calls keep returning it, never raise, never read
out of bounds, and never move the cursor. -/
theorem claim9_eof_idempotent :
    ∀ s : LexerState, s.text.length ≤ s.pos →
      get_next_token s = .ok (⟨.EOF, .none⟩, s) :=
  get_next_token_at_end

/-- C9 witness: a state two positions past a one-character buffer. -/
theorem claim9_witness :
    get_next_token (⟨['a'], 3⟩ : LexerState) =
      .ok (⟨.EOF, .none⟩, ⟨['a'], 3⟩) :=
  claim9_eof_idempotent ⟨['a'], 3⟩ (by decide)

/-- C10 counterexample: the claim says lexing an unterminated string never
raises; but when the buffer ends with a bare backslash right after the
opening quote (`"\`), the scan runs `result += self.current_char` with the
cursor past the end, a Python `TypeError`. -/
theorem claim10_counterexample :
    get_next_token (initLexer ['"', '\\']) = .error .typeError := rfl

/-- C10 (amended): for a string literal whose opening quote is never
followed by an unescaped closing quote, lexing does not raise provided no
escape is cut off by the end of the buffer (`scan_ok`): it returns a
string token holding every remaining character with escape decoding
applied, the cursor ends one past the buffer, and the next call behaves
exactly as at end-of-stream. -/
theorem claim10_unterminated_string :
    ∀ rest : List Char, scan_ok rest = true →
      get_next_token (initLexer ('"' :: rest)) =
        .ok (⟨.STRING, .str (decodeRest rest)⟩, ⟨'"' :: rest, rest.length + 2⟩)
      ∧ get_next_token (⟨'"' :: rest, rest.length + 2⟩ : LexerState) =
        .ok (⟨.EOF, .none⟩, ⟨'"' :: rest, rest.length + 2⟩) := by
  intro rest hs
  constructor
  · have hcc : current_char (initLexer ('"' :: rest)) = some '"' :=
      current_char_some_head (r := rest) rfl
    have hsw : skip_whitespace (initLexer ('"' :: rest)) =
        initLexer ('"' :: rest) := rfl
    simp only [get_next_token, hsw]
    rw [hcc]
    show get_string (initLexer ('"' :: rest)) = _
    simp only [get_string, advance, initLexer]
    rw [show (List.drop (0 + 1) ('"' :: rest)) = rest from by simp]
    rw [strAux_ok rest _ hs]
    simp [LexerState.mk.injEq]
    omega
  · exact get_next_token_at_end _ (by simp)

/-- C10 witness: the unterminated literal `"ab`. -/
theorem claim10_witness :
    get_next_token (initLexer ('"' :: ['a', 'b'])) =
      .ok (⟨.STRING, .str (decodeRest ['a', 'b'])⟩,
        ⟨'"' :: ['a', 'b'], (['a', 'b'] : List Char).length + 2⟩)
    ∧ get_next_token (⟨'"' :: ['a', 'b'],
        (['a', 'b'] : List Char).length + 2⟩ : LexerState) =
      .ok (⟨.EOF, .none⟩, ⟨'"' :: ['a', 'b'],
        (['a', 'b'] : List Char).length + 2⟩) :=
  claim10_unterminated_string ['a', 'b'] (by decide)

end WS
